import Mathlib

set_option maxRecDepth 8000

/-! Shallow embedding of `src/Duplication_detector.py`, a question-deduplication and
priority-mapping pipeline built on pandas.  A table cell is `Option String`
(`none` models a value for which `pd.isna` holds); the regular expression
`Question ID[:\s]*([a-f0-9]{24})` with `re.IGNORECASE` is embedded as an explicit
leftmost matcher over character lists. -/

/-- ASCII model of the regex character class `[:\s]` appearing in `Question ID[:\s]*`. -/
def isSepChar (c : Char) : Bool :=
  c == ':' || c == ' ' || c == '\t' || c == '\n' || c == '\r' || c == '\x0b' || c == '\x0c'

/-- Model of the class `[a-f0-9]` under `re.IGNORECASE`: either case of a hex digit matches. -/
def isHexCI (c : Char) : Bool :=
  ('a' ≤ c && c ≤ 'f') || ('A' ≤ c && c ≤ 'F') || ('0' ≤ c && c ≤ '9')

/-- The lowercase hexadecimal alphabet `[a-f0-9]` as written in the pattern, without the flag. -/
def isHexLowerChar (c : Char) : Bool :=
  ('a' ≤ c && c ≤ 'f') || ('0' ≤ c && c ≤ '9')

/-- Case-insensitive character comparison; `re.IGNORECASE` applied to the literal part. -/
def ciEq (a b : Char) : Bool := a.toLower == b.toLower

/-- Match a literal case-insensitively at the head of the input; return the rest on success. -/
def matchLiteral : List Char → List Char → Option (List Char)
  | [], rest => some rest
  | _ :: _, [] => none
  | p :: ps, c :: cs => if ciEq p c then matchLiteral ps cs else none

/-- Greedy `[:\s]*`.  The separator class and the hex class are disjoint, so the greedy
pass without backtracking is equivalent to the regex engine's behaviour here. -/
def skipSeps : List Char → List Char
  | [] => []
  | c :: cs => if isSepChar c then skipSeps cs else c :: cs

/-- Take exactly `n` characters of the case-insensitive hex class: the capture group
`([a-f0-9]{24})`.  Returns the captured characters and the remaining input. -/
def takeHex : Nat → List Char → Option (List Char × List Char)
  | 0, l => some ([], l)
  | _ + 1, [] => none
  | n + 1, c :: cs =>
    if isHexCI c then (takeHex n cs).map (fun p => (c :: p.1, p.2)) else none

/-- Attempt the whole pattern `Question ID[:\s]*([a-f0-9]{24})` at the start of the input,
returning the captured group. -/
def matchAt (l : List Char) : Option (List Char) :=
  match matchLiteral "Question ID".toList l with
  | none => none
  | some rest => (takeHex 24 (skipSeps rest)).map Prod.fst

/-- Leftmost search, as `re.search`: try the pattern at each start position in order. -/
def searchID : List Char → Option (List Char)
  | [] => none
  | c :: cs =>
    match matchAt (c :: cs) with
    | some g => some g
    | none => searchID cs

/-- Model of `QuestionProcessor.extract_question_id`. -/
def extract_question_id : Option String → Option String
  | none => none
  | some s => (searchID s.toList).map String.mk

/-- Prefix test used by the Python substring operator. -/
def beginsWith : List Char → List Char → Bool
  | [], _ => true
  | _ :: _, [] => false
  | a :: as, b :: bs => a == b && beginsWith as bs

/-- Python substring containment `needle in hay`. -/
def containsSub (needle : List Char) : List Char → Bool
  | [] => beginsWith needle []
  | c :: cs => beginsWith needle (c :: cs) || containsSub needle cs

/-- ASCII model of Python `str.lower`. -/
def lowerList (s : String) : List Char := s.toList.map Char.toLower

def tier1Keywords : List String := ["jee advanced", "jee adv", "advanced"]

def tier2Keywords : List String := ["jee main", "jee mains", "mains"]

/-- Model of `QuestionProcessor.get_priority`. -/
def get_priority : Option String → Nat
  | none => 4
  | some s =>
    let text := lowerList s
    if tier1Keywords.any (fun p => containsSub p.toList text) then 1
    else if tier2Keywords.any (fun p => containsSub p.toList text) then 2
    else if containsSub "ncert".toList text then 3
    else 4

/-- One input row: the two free-text cells `question_1` and `question_2`. -/
structure DuplicatePair where
  question_1 : Option String
  question_2 : Option String
deriving DecidableEq, Repr

/-- One record appended by the loop of `process_duplicates`. -/
structure SelectionResult where
  selected_question_id : String
  rejected_question_id : String
  selected_priority : Nat
  rejected_priority : Nat
  chosen : String
deriving DecidableEq, Repr

/-- Loop body of `QuestionProcessor.process_duplicates`: the records one input row
contributes to `results` (one when both identifiers are present, none otherwise). -/
def processPair (row : DuplicatePair) : List SelectionResult :=
  let q1_id := extract_question_id row.question_1
  let q2_id := extract_question_id row.question_2
  let q1_p := get_priority row.question_1
  let q2_p := get_priority row.question_2
  match q1_id, q2_id with
  | some a, some b =>
    if q1_p ≤ q2_p then [⟨a, b, q1_p, q2_p, "question_1"⟩]
    else [⟨b, a, q2_p, q1_p, "question_2"⟩]
  | _, _ => []

def resultColumns : List String :=
  ["selected_question_id", "rejected_question_id", "selected_priority",
   "rejected_priority", "chosen"]

/-- Columns of `pd.DataFrame(results)`: a frame built from an empty record list has no
columns at all; otherwise it has the five record keys. -/
def dataFrameColumns (results : List SelectionResult) : List String :=
  if results = [] then [] else resultColumns

/-- First-seen-wins filter keyed on `selected_question_id`: the `keep=first` semantics of
`DataFrame.drop_duplicates`, with `seen` the accumulator of keys already kept. -/
def dedupBySelected : List SelectionResult → List String → List SelectionResult
  | [], _ => []
  | r :: rs, seen =>
    if r.selected_question_id ∈ seen then dedupBySelected rs seen
    else r :: dedupBySelected rs (r.selected_question_id :: seen)

/-- Model of `results_df.drop_duplicates(subset=[selected_question_id])`: pandas raises
`KeyError` when the subset column is not among the frame's columns, which happens exactly
when `results` is empty. -/
def drop_duplicates_by_selected (results : List SelectionResult) :
    Except String (List SelectionResult) :=
  if "selected_question_id" ∈ dataFrameColumns results then
    Except.ok (dedupBySelected results [])
  else
    Except.error "KeyError: selected_question_id"

/-- Extension part of `os.path.splitext` (POSIX rules): the suffix starting at the last dot
of the basename, or empty when the basename has no dot after its leading dots. -/
def splitextExt (p : String) : String :=
  let base := (p.toList.reverse.takeWhile (fun c => c != '/')).reverse
  let rev := base.reverse
  if rev.any (fun c => c == '.') then
    let afterRev := rev.takeWhile (fun c => c != '.')
    let beforeDot := ((rev.dropWhile (fun c => c != '.')).drop 1).reverse
    if beforeDot.any (fun c => c != '.') then String.mk ('.' :: afterRev.reverse)
    else ""
  else ""

/-- The `.lower()` applied to the extension in `convert_xlsx_to_csv`. -/
def lowerExt (p : String) : String := String.mk ((splitextExt p).toList.map Char.toLower)

/-- Model of `QuestionProcessor.convert_xlsx_to_csv`.  The parsed rows stand in for the
file's content; an unrecognized extension raises `ValueError("Unsupported file format!")`. -/
def convert_xlsx_to_csv (file_path : String) (fileData : List DuplicatePair) :
    Except String (List DuplicatePair) :=
  let ext := lowerExt file_path
  if ext = ".xlsx" then Except.ok fileData
  else if ext = ".csv" then Except.ok fileData
  else Except.error "Unsupported file format!"

/-- Model of `QuestionProcessor.process_duplicates`: load, per-row selection, then the
column-keyed deduplication.  The `Except` error is an uncaught Python exception; writing
`final_selection_questions.csv` happens only after the dedup step succeeds. -/
def process_duplicates (file_path : String) (fileData : List DuplicatePair) :
    Except String (List SelectionResult) :=
  match convert_xlsx_to_csv file_path fileData with
  | Except.error e => Except.error e
  | Except.ok df => drop_duplicates_by_selected (df.flatMap processPair)

/-- The `priority_labels` table from `QuestionProcessor.__init__`; a key outside the dict
has no entry. -/
def priority_labels (p : Nat) : Option String :=
  if p = 1 then some "JEE Advanced"
  else if p = 2 then some "JEE Mains"
  else if p = 3 then some "NCERT"
  else if p = 4 then some "Plain/Other"
  else none

/-- One row of the `question_id_priority_mapping.csv` artifact. -/
structure PriorityMapping where
  question_id : String
  priority : Nat
  priority_label : Option String
deriving DecidableEq, Repr

/-- Model of `QuestionProcessor.create_priority_mapping`: rename the two selected columns
and attach `priority.map(self.priority_labels)` (a key missing from the dict would give
NA, hence the `Option`). -/
def create_priority_mapping (results : List SelectionResult) : List PriorityMapping :=
  results.map (fun r =>
    ⟨r.selected_question_id, r.selected_priority, priority_labels r.selected_priority⟩)

deriving instance DecidableEq for Except

/-! Concrete sample rows used by the witnesses. -/

def sampleAdvanced : Option String :=
  some "Some text Question ID: aaaaaaaaaaaaaaaaaaaaaaaa JEE Advanced"

def sampleNcert : Option String := some "Question ID: bbbbbbbbbbbbbbbbbbbbbbbb NCERT"

def sampleMains : Option String := some "Question ID: cccccccccccccccccccccccc mains"

def samplePlain : Option String := some "Question ID: dddddddddddddddddddddddd plain"

def sampleNoId : Option String := some "no identifier here"

def witnessBatch : List DuplicatePair :=
  [⟨sampleMains, sampleNcert⟩, ⟨sampleMains, samplePlain⟩]

def witnessRes : List SelectionResult :=
  [⟨"cccccccccccccccccccccccc", "bbbbbbbbbbbbbbbbbbbbbbbb", 2, 3, "question_1"⟩]

/-! Helper lemmas about the first-seen-wins deduplication. -/

theorem dedupBySelected_mem {l : List SelectionResult} {seen : List String}
    {r : SelectionResult} (h : r ∈ dedupBySelected l seen) : r ∈ l := by
  induction l generalizing seen with
  | nil => simp [dedupBySelected] at h
  | cons a t ih =>
    by_cases ha : a.selected_question_id ∈ seen
    · simp only [dedupBySelected, if_pos ha] at h
      exact List.mem_cons_of_mem _ (ih h)
    · simp only [dedupBySelected, if_neg ha, List.mem_cons] at h
      rcases h with rfl | h
      · exact List.mem_cons_self _ _
      · exact List.mem_cons_of_mem _ (ih h)

theorem dedupBySelected_not_seen {l : List SelectionResult} {seen : List String}
    {r : SelectionResult} (h : r ∈ dedupBySelected l seen) :
    r.selected_question_id ∉ seen := by
  induction l generalizing seen with
  | nil => simp [dedupBySelected] at h
  | cons a t ih =>
    by_cases ha : a.selected_question_id ∈ seen
    · simp only [dedupBySelected, if_pos ha] at h
      exact ih h
    · simp only [dedupBySelected, if_neg ha, List.mem_cons] at h
      rcases h with rfl | h
      · exact ha
      · exact fun hmem => ih h (List.mem_cons_of_mem _ hmem)

theorem dedupBySelected_nodup (l : List SelectionResult) (seen : List String) :
    ((dedupBySelected l seen).map (fun r => r.selected_question_id)).Nodup := by
  induction l generalizing seen with
  | nil => simp [dedupBySelected]
  | cons a t ih =>
    by_cases ha : a.selected_question_id ∈ seen
    · simpa only [dedupBySelected, if_pos ha] using ih seen
    · simp only [dedupBySelected, if_neg ha, List.map_cons, List.nodup_cons]
      refine ⟨fun hmem => ?_, ih _⟩
      rcases List.mem_map.mp hmem with ⟨x, hx, hxe⟩
      exact dedupBySelected_not_seen hx (hxe ▸ List.mem_cons_self _ _)

theorem dedupBySelected_find (l : List SelectionResult) (seen : List String)
    (r : SelectionResult) (h : r ∈ dedupBySelected l seen) :
    l.find? (fun x => x.selected_question_id == r.selected_question_id) = some r := by
  induction l generalizing seen with
  | nil => simp [dedupBySelected] at h
  | cons a t ih =>
    by_cases ha : a.selected_question_id ∈ seen
    · simp only [dedupBySelected, if_pos ha] at h
      have hr := dedupBySelected_not_seen h
      have hne : ¬ (a.selected_question_id == r.selected_question_id) = true := by
        simp only [beq_iff_eq]
        intro he
        exact hr (he ▸ ha)
      rw [@List.find?_cons_of_neg _
        (fun x => x.selected_question_id == r.selected_question_id) a t hne]
      exact ih _ h
    · simp only [dedupBySelected, if_neg ha, List.mem_cons] at h
      rcases h with rfl | h
      · rw [List.find?_cons_of_pos _ (by simp)]
      · have hr := dedupBySelected_not_seen h
        have hne : ¬ (a.selected_question_id == r.selected_question_id) = true := by
          simp only [beq_iff_eq]
          intro he
          exact hr (he ▸ List.mem_cons_self _ _)
        rw [@List.find?_cons_of_neg _
          (fun x => x.selected_question_id == r.selected_question_id) a t hne]
        exact ih _ h

theorem dedupBySelected_covers (l : List SelectionResult) (seen : List String)
    (x : SelectionResult) (hx : x ∈ l) (hseen : x.selected_question_id ∉ seen) :
    ∃ r ∈ dedupBySelected l seen, r.selected_question_id = x.selected_question_id := by
  induction l generalizing seen with
  | nil => cases hx
  | cons a t ih =>
    by_cases ha : a.selected_question_id ∈ seen
    · rcases List.mem_cons.mp hx with rfl | hx
      · exact absurd ha hseen
      · simp only [dedupBySelected, if_pos ha]
        exact ih _ hx hseen
    · by_cases he : x.selected_question_id = a.selected_question_id
      · refine ⟨a, ?_, he.symm⟩
        simp [dedupBySelected, if_neg ha]
      · rcases List.mem_cons.mp hx with rfl | hx
        · exact absurd rfl he
        · have hseen2 : x.selected_question_id ∉ a.selected_question_id :: seen := by
            simp only [List.mem_cons]
            rintro (h | h)
            · exact he h
            · exact hseen h
          rcases ih _ hx hseen2 with ⟨r, hr, hre⟩
          refine ⟨r, ?_, hre⟩
          simp only [dedupBySelected, if_neg ha, List.mem_cons]
          exact Or.inr hr

/-! Helper lemmas about the pipeline plumbing. -/

theorem convert_ok_or_error (path : String) (d : List DuplicatePair) :
    convert_xlsx_to_csv path d = Except.ok d ∨
    convert_xlsx_to_csv path d = Except.error "Unsupported file format!" := by
  unfold convert_xlsx_to_csv
  by_cases h1 : lowerExt path = ".xlsx" <;> by_cases h2 : lowerExt path = ".csv" <;>
    simp [h1, h2]

theorem process_duplicates_ok {path : String} {pairs : List DuplicatePair}
    {res : List SelectionResult} (h : process_duplicates path pairs = Except.ok res) :
    res = dedupBySelected (pairs.flatMap processPair) [] := by
  unfold process_duplicates at h
  split at h
  · simp at h
  · rename_i df heq
    have hdf : df = pairs := by
      rcases convert_ok_or_error path pairs with hc | hc <;> rw [hc] at heq
      · exact (Except.ok.inj heq).symm
      · simp at heq
    subst hdf
    unfold drop_duplicates_by_selected at h
    split at h
    · exact (Except.ok.inj h).symm
    · simp at h

/-! Helper lemmas about the embedded regex matcher. -/

theorem ciEq_refl (c : Char) : ciEq c c = true := by
  simp [ciEq]

theorem matchLiteral_append_self (lit t : List Char) :
    matchLiteral lit (lit ++ t) = some t := by
  induction lit with
  | nil => rfl
  | cons p ps ih => simp [matchLiteral, ciEq_refl, ih]

theorem matchLiteral_suffix (lit : List Char) :
    ∀ l r, matchLiteral lit l = some r → ∃ pre, l = pre ++ r := by
  induction lit with
  | nil =>
    intro l r h
    exact ⟨[], by simpa [matchLiteral] using h⟩
  | cons p ps ih =>
    intro l r h
    cases l with
    | nil => simp [matchLiteral] at h
    | cons c cs =>
      by_cases hc : ciEq p c = true
      · simp only [matchLiteral, if_pos hc] at h
        rcases ih cs r h with ⟨pre, hpre⟩
        exact ⟨c :: pre, by simp [hpre]⟩
      · simp [matchLiteral, hc] at h

theorem skipSeps_append (seps : List Char) (rest : List Char)
    (h : ∀ c ∈ seps, isSepChar c = true) :
    skipSeps (seps ++ rest) = skipSeps rest := by
  induction seps with
  | nil => rfl
  | cons c cs ih =>
    simp only [List.cons_append, skipSeps, if_pos (h c (List.mem_cons_self _ _))]
    exact ih (fun x hx => h x (List.mem_cons_of_mem _ hx))

theorem skipSeps_cons_nonsep (c : Char) (l : List Char) (h : isSepChar c = false) :
    skipSeps (c :: l) = c :: l := by
  simp [skipSeps, h]

theorem skipSeps_suffix (l : List Char) : ∃ pre, l = pre ++ skipSeps l := by
  induction l with
  | nil => exact ⟨[], rfl⟩
  | cons c cs ih =>
    by_cases hc : isSepChar c = true
    · rcases ih with ⟨pre, hpre⟩
      exact ⟨c :: pre, by simp [skipSeps, hc, ← hpre]⟩
    · exact ⟨[], by simp [skipSeps, hc]⟩

theorem hex_not_sep {c : Char} (h : isHexCI c = true) : isSepChar c = false := by
  cases hc : isSepChar c
  · rfl
  · exfalso
    have hcs : (((((c = ':' ∨ c = ' ') ∨ c = '\t') ∨ c = '\n') ∨ c = '\r') ∨ c = '\x0b') ∨
        c = '\x0c' := by
      simpa [isSepChar] using hc
    rcases hcs with ((((((rfl | rfl) | rfl) | rfl) | rfl) | rfl) | rfl) <;>
      exact absurd h (by decide)

theorem takeHex_all (run rest : List Char)
    (hhex : ∀ c ∈ run, isHexCI c = true) :
    takeHex run.length (run ++ rest) = some (run, rest) := by
  induction run with
  | nil => rfl
  | cons c cs ih =>
    simp only [List.length_cons, List.cons_append, takeHex,
      if_pos (hhex c (List.mem_cons_self _ _)), List.append_eq]
    rw [ih (fun x hx => hhex x (List.mem_cons_of_mem _ hx))]
    rfl

theorem takeHex_split :
    ∀ (n : Nat) (l g r : List Char), takeHex n l = some (g, r) →
      l = g ++ r ∧ g.length = n ∧ ∀ c ∈ g, isHexCI c = true := by
  intro n
  induction n with
  | zero =>
    intro l g r h
    simp only [takeHex, Option.some.injEq, Prod.mk.injEq] at h
    rcases h with ⟨rfl, rfl⟩
    exact ⟨rfl, rfl, by simp⟩
  | succ m ih =>
    intro l g r h
    cases l with
    | nil => simp [takeHex] at h
    | cons c cs =>
      by_cases hc : isHexCI c = true
      · simp only [takeHex, if_pos hc, Option.map_eq_some'] at h
        rcases h with ⟨⟨g0, r0⟩, hg0, hinj⟩
        rcases ih cs g0 r0 hg0 with ⟨heq, hlen, hhex⟩
        rcases Prod.mk.injEq .. ▸ hinj with ⟨rfl, rfl⟩
        refine ⟨by simp [heq], by simp [hlen], ?_⟩
        intro x hx
        rcases List.mem_cons.mp hx with rfl | hx
        · exact hc
        · exact hhex x hx
      · simp [takeHex, hc] at h

theorem matchAt_split {l g : List Char} (h : matchAt l = some g) :
    (∃ pre r, l = pre ++ (g ++ r)) ∧ g.length = 24 ∧ ∀ c ∈ g, isHexCI c = true := by
  unfold matchAt at h
  cases hlit : matchLiteral "Question ID".toList l with
  | none => rw [hlit] at h; simp at h
  | some rest =>
    rw [hlit] at h
    simp only [Option.map_eq_some'] at h
    rcases h with ⟨⟨g0, r0⟩, hg0, rfl⟩
    rcases takeHex_split 24 (skipSeps rest) g0 r0 hg0 with ⟨heq, hlen, hhex⟩
    rcases matchLiteral_suffix _ _ _ hlit with ⟨pre1, hpre1⟩
    rcases skipSeps_suffix rest with ⟨pre2, hpre2⟩
    refine ⟨⟨pre1 ++ pre2, r0, ?_⟩, hlen, hhex⟩
    rw [hpre1, hpre2, heq]
    simp

theorem searchID_of_matchAt {l g : List Char} (h : matchAt l = some g) :
    searchID l = some g := by
  cases l with
  | nil => simp [matchAt, matchLiteral] at h
  | cons c cs => simp [searchID, h]

theorem searchID_none_of_all_none :
    ∀ l : List Char, (∀ i : Nat, matchAt (l.drop i) = none) → searchID l = none := by
  intro l
  induction l with
  | nil => intro _; rfl
  | cons c cs ih =>
    intro h
    have h0 := h 0
    simp only [List.drop_zero] at h0
    simp only [searchID, h0]
    exact ih (fun i => by simpa [List.drop_succ_cons] using h (i + 1))

theorem searchID_some_first :
    ∀ {l g : List Char}, searchID l = some g →
      ∃ i : Nat, matchAt (l.drop i) = some g ∧
        ∀ j : Nat, j < i → matchAt (l.drop j) = none := by
  intro l
  induction l with
  | nil => intro g h; simp [searchID] at h
  | cons c cs ih =>
    intro g h
    cases hm : matchAt (c :: cs) with
    | some g0 =>
      simp only [searchID, hm] at h
      refine ⟨0, ?_, fun j hj => absurd hj (Nat.not_lt_zero j)⟩
      simpa [hm] using h
    | none =>
      simp only [searchID, hm] at h
      rcases ih h with ⟨i, h1, h2⟩
      refine ⟨i + 1, by simpa [List.drop_succ_cons] using h1, ?_⟩
      intro j hj
      cases j with
      | zero => simpa using hm
      | succ j0 =>
        simpa [List.drop_succ_cons] using h2 j0 (Nat.lt_of_succ_lt_succ hj)

theorem searchID_split {l g : List Char} (h : searchID l = some g) :
    (∃ pre r, l = pre ++ (g ++ r)) ∧ g.length = 24 ∧ ∀ c ∈ g, isHexCI c = true := by
  rcases searchID_some_first h with ⟨i, h1, _⟩
  rcases matchAt_split h1 with ⟨⟨pre, r, heq⟩, hlen, hhex⟩
  refine ⟨⟨l.take i ++ pre, r, ?_⟩, hlen, hhex⟩
  conv_lhs => rw [← List.take_append_drop i l]
  rw [heq]
  simp

theorem bool_ne_true {b : Bool} (h : b = false) : ¬ b = true := by
  simp [h]

theorem matchAt_append_lit (x : List Char) :
    matchAt ("Question ID".toList ++ x) = (takeHex 24 (skipSeps x)).map Prod.fst := by
  unfold matchAt
  rw [matchLiteral_append_self]

/-- C1: when the batch succeeds, the final result set has at most one row per distinct
`selected_question_id`; the retained row for each identifier is exactly the first row of
the accumulated (input-ordered) result list with that identifier, and every accumulated
row's identifier is still represented, so later rows with an already-seen selected
identifier are the only ones discarded. -/
theorem process_duplicates_first_seen (path : String) (pairs : List DuplicatePair)
    (res : List SelectionResult) (h : process_duplicates path pairs = Except.ok res) :
    ((res.map (fun r => r.selected_question_id)).Nodup) ∧
    (∀ r ∈ res, (pairs.flatMap processPair).find?
        (fun x => x.selected_question_id == r.selected_question_id) = some r) ∧
    (∀ x ∈ pairs.flatMap processPair, ∃ r ∈ res,
        r.selected_question_id = x.selected_question_id) := by
  have hres := process_duplicates_ok h
  subst hres
  exact ⟨dedupBySelected_nodup _ _,
    fun r hr => dedupBySelected_find _ _ r hr,
    fun x hx => dedupBySelected_covers _ _ x hx (List.not_mem_nil _)⟩

theorem process_duplicates_first_seen_witness :
    ((witnessRes.map (fun r => r.selected_question_id)).Nodup) ∧
    (∀ r ∈ witnessRes, (witnessBatch.flatMap processPair).find?
        (fun x => x.selected_question_id == r.selected_question_id) = some r) ∧
    (∀ x ∈ witnessBatch.flatMap processPair, ∃ r ∈ witnessRes,
        r.selected_question_id = x.selected_question_id) :=
  process_duplicates_first_seen "f.csv" witnessBatch witnessRes (by decide)

/-- C2: for every pair in which both sides yield an identifier, `question_1` is selected
precisely when its tier is lower or equal (ties favour `question_1`), and the emitted row
carries the selected/rejected identifiers, their tiers, and the chosen side; otherwise the
symmetric row with `chosen = question_2` is emitted. -/
theorem processPair_tier_selection (q1 q2 : Option String) (a b : String)
    (h1 : extract_question_id q1 = some a) (h2 : extract_question_id q2 = some b) :
    (get_priority q1 ≤ get_priority q2 →
      processPair ⟨q1, q2⟩ = [⟨a, b, get_priority q1, get_priority q2, "question_1"⟩]) ∧
    (¬ get_priority q1 ≤ get_priority q2 →
      processPair ⟨q1, q2⟩ = [⟨b, a, get_priority q2, get_priority q1, "question_2"⟩]) := by
  constructor <;> intro hle <;> simp [processPair, h1, h2, hle]

theorem processPair_tier_selection_witness :
    processPair ⟨sampleAdvanced, sampleNcert⟩ =
      [⟨"aaaaaaaaaaaaaaaaaaaaaaaa", "bbbbbbbbbbbbbbbbbbbbbbbb",
        get_priority sampleAdvanced, get_priority sampleNcert, "question_1"⟩] :=
  (processPair_tier_selection sampleAdvanced sampleNcert
      "aaaaaaaaaaaaaaaaaaaaaaaa" "bbbbbbbbbbbbbbbbbbbbbbbb" (by decide) (by decide)).1
    (by decide)

/-- C3: a pair on which identifier extraction is absent on at least one side contributes
zero selection rows; the pair is skipped silently (the model is a total function, so no
error is raised). -/
theorem processPair_missing_id (q1 q2 : Option String)
    (h : extract_question_id q1 = none ∨ extract_question_id q2 = none) :
    processPair ⟨q1, q2⟩ = [] := by
  rcases h with h | h
  · simp [processPair, h]
  · rcases he : extract_question_id q1 with _ | a <;> simp [processPair, h, he]

theorem processPair_missing_id_witness :
    processPair ⟨sampleNoId, sampleNcert⟩ = [] :=
  processPair_missing_id sampleNoId sampleNcert (Or.inl (by decide))

/-- C4: classification tests the keyword groups in strict precedence order.  Any tier-1
keyword in the lowercased text gives tier 1 regardless of other keywords; tier 2 and
tier 3 fire only when every earlier group missed; with no keyword at all the result falls
through to tier 4, as it does for a null field and for the empty string. -/
theorem get_priority_precedence :
    (∀ s : String, tier1Keywords.any (fun p => containsSub p.toList (lowerList s)) = true →
      get_priority (some s) = 1) ∧
    (∀ s : String, tier1Keywords.any (fun p => containsSub p.toList (lowerList s)) = false →
      tier2Keywords.any (fun p => containsSub p.toList (lowerList s)) = true →
      get_priority (some s) = 2) ∧
    (∀ s : String, tier1Keywords.any (fun p => containsSub p.toList (lowerList s)) = false →
      tier2Keywords.any (fun p => containsSub p.toList (lowerList s)) = false →
      containsSub "ncert".toList (lowerList s) = true → get_priority (some s) = 3) ∧
    (∀ s : String, tier1Keywords.any (fun p => containsSub p.toList (lowerList s)) = false →
      tier2Keywords.any (fun p => containsSub p.toList (lowerList s)) = false →
      containsSub "ncert".toList (lowerList s) = false → get_priority (some s) = 4) ∧
    get_priority none = 4 ∧ get_priority (some "") = 4 := by
  refine ⟨fun s h1 => ?_, fun s h1 h2 => ?_, fun s h1 h2 h3 => ?_, fun s h1 h2 h3 => ?_,
    rfl, by decide⟩
  · simp only [get_priority]
    rw [if_pos h1]
  · simp only [get_priority]
    rw [if_neg (bool_ne_true h1), if_pos h2]
  · simp only [get_priority]
    rw [if_neg (bool_ne_true h1), if_neg (bool_ne_true h2), if_pos h3]
  · simp only [get_priority]
    rw [if_neg (bool_ne_true h1), if_neg (bool_ne_true h2), if_neg (bool_ne_true h3)]

theorem get_priority_precedence_witness :
    get_priority (some "JEE Advanced question, also ncert and mains") = 1 :=
  get_priority_precedence.1 "JEE Advanced question, also ncert and mains" (by decide)

/-- C7: on a batch whose every pair is skipped (no pair yields identifiers on both sides),
the accumulated result list is empty, the frame built from it has no columns, and the
column-keyed dedup step raises `KeyError` instead of producing empty outputs; the error
occurs before any artifact is written. -/
theorem process_duplicates_empty_batch_error (path : String) (pairs : List DuplicatePair)
    (hext : lowerExt path = ".xlsx" ∨ lowerExt path = ".csv")
    (hempty : pairs.flatMap processPair = []) :
    process_duplicates path pairs = Except.error "KeyError: selected_question_id" := by
  unfold process_duplicates convert_xlsx_to_csv
  rcases hext with h | h <;>
    simp [h, drop_duplicates_by_selected, hempty, dataFrameColumns]

theorem process_duplicates_empty_batch_error_witness :
    process_duplicates "f.csv" [⟨sampleNoId, sampleNoId⟩] =
      Except.error "KeyError: selected_question_id" :=
  process_duplicates_empty_batch_error "f.csv" [⟨sampleNoId, sampleNoId⟩]
    (Or.inr (by decide)) (by decide)

/-- C8: a source path whose lowercased extension is neither `.xlsx` nor `.csv` makes the
pipeline fail with the fatal `Unsupported file format!` error, for every batch content
alike — so before any pair is processed and before any output exists. -/
theorem process_duplicates_unsupported_format (path : String) (pairs : List DuplicatePair)
    (h1 : lowerExt path ≠ ".xlsx") (h2 : lowerExt path ≠ ".csv") :
    process_duplicates path pairs = Except.error "Unsupported file format!" := by
  unfold process_duplicates convert_xlsx_to_csv
  simp [h1, h2]

theorem process_duplicates_unsupported_format_witness :
    process_duplicates "report.txt" [⟨sampleAdvanced, sampleNcert⟩] =
      Except.error "Unsupported file format!" :=
  process_duplicates_unsupported_format "report.txt" [⟨sampleAdvanced, sampleNcert⟩]
    (by decide) (by decide)

/-- C9: the tier table maps 1, 2, 3, 4 exactly to the four fixed labels (and the four
labels are pairwise distinct, so the table is a bijection between the tiers and the
labels); the priority mapping has one entry per result row, pairing that row's selected
identifier with its selected tier and that tier's label; and on deduplicated pipeline
output the mapping's identifiers are pairwise distinct. -/
theorem priority_mapping_bijection_rows :
    (([1, 2, 3, 4] : List Nat).map priority_labels =
      [some "JEE Advanced", some "JEE Mains", some "NCERT", some "Plain/Other"]) ∧
    ([("JEE Advanced" : String), "JEE Mains", "NCERT", "Plain/Other"].Nodup) ∧
    (∀ results : List SelectionResult,
      List.Forall₂ (fun (m : PriorityMapping) (r : SelectionResult) =>
          m.question_id = r.selected_question_id ∧ m.priority = r.selected_priority ∧
          m.priority_label = priority_labels r.selected_priority)
        (create_priority_mapping results) results) ∧
    (∀ (path : String) (pairs : List DuplicatePair) (res : List SelectionResult),
      process_duplicates path pairs = Except.ok res →
      ((create_priority_mapping res).map (fun m => m.question_id)).Nodup) := by
  refine ⟨by decide, by decide, fun results => ?_, fun path pairs res h => ?_⟩
  · induction results with
    | nil => exact List.Forall₂.nil
    | cons r t ih => exact List.Forall₂.cons ⟨rfl, rfl, rfl⟩ ih
  · have hres := process_duplicates_ok h
    subst hres
    simpa [create_priority_mapping, List.map_map, Function.comp] using
      dedupBySelected_nodup (pairs.flatMap processPair) []

theorem priority_mapping_bijection_rows_witness :
    ((create_priority_mapping witnessRes).map (fun m => m.question_id)).Nodup :=
  priority_mapping_bijection_rows.2.2.2 "f.csv" witnessBatch witnessRes (by decide)

/-- C5 counterexample: with `re.IGNORECASE` the class `[a-f0-9]` also matches uppercase
hex digits, so extraction can succeed and return a value that is not a lowercase
hexadecimal string. -/
theorem extract_lowercase_claim_cex :
    extract_question_id (some "Question ID: ABCDEF0123456789ABCDEF01") =
      some "ABCDEF0123456789ABCDEF01" ∧
    ¬ (∀ c ∈ ("ABCDEF0123456789ABCDEF01" : String).toList, isHexLowerChar c = true) := by
  constructor
  · decide
  · decide

/-- C5 (amended): whenever extraction succeeds, the returned value is the exact
24-character contiguous substring matched after `Question ID` and its separators, and
every character is a hexadecimal digit of either case — lowercase is not guaranteed,
because `re.IGNORECASE` applies to the `[a-f0-9]` class as well. -/
theorem extract_question_id_hex_shape (s t : String)
    (h : extract_question_id (some s) = some t) :
    t.toList.length = 24 ∧ (∀ c ∈ t.toList, isHexCI c = true) ∧
    ∃ l r, s.toList = l ++ (t.toList ++ r) := by
  simp only [extract_question_id, Option.map_eq_some'] at h
  rcases h with ⟨g, hg, rfl⟩
  have hts : (String.mk g).toList = g := rfl
  rw [hts]
  rcases searchID_split hg with ⟨⟨pre, r, heq⟩, hlen, hhex⟩
  exact ⟨hlen, hhex, pre, r, heq⟩

theorem extract_question_id_hex_shape_witness :
    (("aaaaaaaaaaaaaaaaaaaaaaaa" : String).toList.length = 24) ∧
    (∀ c ∈ ("aaaaaaaaaaaaaaaaaaaaaaaa" : String).toList, isHexCI c = true) ∧
    ∃ l r, ("Question ID: aaaaaaaaaaaaaaaaaaaaaaaa NCERT" : String).toList =
      l ++ (("aaaaaaaaaaaaaaaaaaaaaaaa" : String).toList ++ r) :=
  extract_question_id_hex_shape "Question ID: aaaaaaaaaaaaaaaaaaaaaaaa NCERT"
    "aaaaaaaaaaaaaaaaaaaaaaaa" (by decide)

/-- C6: extraction is absent on a null field, on the empty string, and on any text where
the pattern matches at no start position; and when extraction does return an identifier,
it comes from the leftmost matching position — every earlier start position fails — so
with several occurrences only the first match in the text is used. -/
theorem extract_absent_and_first_match :
    (extract_question_id none = none) ∧
    (extract_question_id (some "") = none) ∧
    (∀ s : String, (∀ i : Nat, matchAt (s.toList.drop i) = none) →
      extract_question_id (some s) = none) ∧
    (∀ s t : String, extract_question_id (some s) = some t →
      ∃ i : Nat, matchAt (s.toList.drop i) = some t.toList ∧
        ∀ j : Nat, j < i → matchAt (s.toList.drop j) = none) := by
  refine ⟨rfl, by decide, fun s h => ?_, fun s t h => ?_⟩
  · have hn : searchID s.data = none := searchID_none_of_all_none s.toList h
    simp [extract_question_id, hn]
  · simp only [extract_question_id, Option.map_eq_some'] at h
    rcases h with ⟨g, hg, rfl⟩
    have hts : (String.mk g).toList = g := rfl
    rw [hts]
    exact searchID_some_first hg

theorem extract_absent_and_first_match_witness :
    ∃ i : Nat,
      matchAt ((("Question ID: aaaaaaaaaaaaaaaaaaaaaaaa Question ID: bbbbbbbbbbbbbbbbbbbbbbbb" :
          String)).toList.drop i) = some ("aaaaaaaaaaaaaaaaaaaaaaaa" : String).toList ∧
      ∀ j : Nat, j < i →
        matchAt ((("Question ID: aaaaaaaaaaaaaaaaaaaaaaaa Question ID: bbbbbbbbbbbbbbbbbbbbbbbb" :
          String)).toList.drop j) = none :=
  extract_absent_and_first_match.2.2.2
    "Question ID: aaaaaaaaaaaaaaaaaaaaaaaa Question ID: bbbbbbbbbbbbbbbbbbbbbbbb"
    "aaaaaaaaaaaaaaaaaaaaaaaa" (by decide)

/-- C10: a text starting with `Question ID`, optional separators, and a hexadecimal run
longer than 24 characters does not give the absent result — extraction returns exactly
the first 24 characters of the run, silently truncating it. -/
theorem extract_truncates_long_run (seps run rest : List Char) (s : String)
    (hs : s.toList = "Question ID".toList ++ (seps ++ (run ++ rest)))
    (hseps : ∀ c ∈ seps, isSepChar c = true)
    (hrun : ∀ c ∈ run, isHexCI c = true)
    (hlen : 24 < run.length) :
    extract_question_id (some s) = some (String.mk (run.take 24)) := by
  have hm : matchAt s.toList = some (run.take 24) := by
    rw [hs, matchAt_append_lit, skipSeps_append _ _ hseps]
    cases run with
    | nil => exact absurd hlen (by simp)
    | cons c0 run0 =>
      rw [List.cons_append,
        skipSeps_cons_nonsep _ _ (hex_not_sep (hrun c0 (List.mem_cons_self _ _))),
        ← List.cons_append]
      have hsplit : (c0 :: run0) ++ rest =
          (c0 :: run0).take 24 ++ ((c0 :: run0).drop 24 ++ rest) := by
        rw [← List.append_assoc, List.take_append_drop]
      rw [hsplit]
      have h24 : ((c0 :: run0).take 24).length = 24 := by
        rw [List.length_take]
        exact Nat.min_eq_left (Nat.le_of_lt hlen)
      have htk := takeHex_all ((c0 :: run0).take 24) ((c0 :: run0).drop 24 ++ rest)
        (fun c hc => hrun c (List.mem_of_mem_take hc))
      rw [h24] at htk
      rw [htk]
      rfl
  simp only [extract_question_id]
  rw [searchID_of_matchAt hm]
  rfl

theorem extract_truncates_long_run_witness :
    extract_question_id (some "Question ID: aaaaaaaaaaaaaaaaaaaaaaaaa") =
      some (String.mk (("aaaaaaaaaaaaaaaaaaaaaaaaa" : String).toList.take 24)) :=
  extract_truncates_long_run [':', ' '] ("aaaaaaaaaaaaaaaaaaaaaaaaa" : String).toList []
    "Question ID: aaaaaaaaaaaaaaaaaaaaaaaaa" (by decide) (by decide) (by decide) (by decide)
